import Mathlib

/-!
Verification of `src/trivia_qa/triviaqa_evaluators.py`.

The file embeds the evaluator module shallowly: probabilities and scores
become `Rat`, Python lists become `List`, the insertion-ordered
`defaultdict(float)` becomes an association list, and Python runtime
errors (`NameError`, `TypeError`, `AttributeError`, `IndexError`) become
`Except.error`.  External collaborators that are not under `src/`
(`compute_span_f1`, the TriviaQA text metrics, `flatten_iterable`, the
`Evaluation` container) are modelled from the spec and marked as such.
-/

attribute [local semireducible] Rat.mul Rat.add Rat.inv Rat.sub

deriving instance DecidableEq for Except

namespace TriviaQaEval

/-- A word-level answer span, an inclusive `(start_word_index, end_word_index)` pair. -/
abbrev Span := Nat × Nat

/-- Gold data of one example: `answer_spans` and `answer_aliases` (see spec section 3). -/
structure Answer where
  answer_spans : List Span
  answer_aliases : List String
deriving DecidableEq

/-- One example, as consumed by the evaluators: a tokenized context made of
paragraph token sequences, and an optional `Answer` (`None` in Python). -/
structure ParagraphAndQuestion where
  context : List (List String)
  answer : Option Answer
deriving DecidableEq

/-- Modelled from the spec: `flatten_iterable` from `utils` (not under `src/`)
flattens the paragraph token sequences into one ordered token sequence. -/
def flatten_iterable (xss : List (List String)) : List String := xss.flatten

/-- Python `str.lower()` on the basic latin range, the range `Char.toLower`
handles; all tokens the claims touch are ASCII. -/
def pyLower (s : String) : String := String.mk (s.data.map Char.toLower)

/-- Strip characters satisfying `p` from both ends of a character list, as
Python `str.strip(chars)` does. -/
def stripBoth (p : Char → Bool) (l : List Char) : List Char :=
  (l.dropWhile p).rdropWhile p

/-- Python `x.strip(chars)`: remove leading and trailing characters drawn from `cs`. -/
def pyStrip (cs : List Char) (s : String) : String :=
  String.mk (stripBoth (fun c => cs.contains c) s.data)

/-- The stop-token set of `get_best_text`, line 17 of the source. -/
def skip : List String := ["a", "an", "the", ""]

/-- `string.punctuation`: ASCII codes 33-47, 58-64, 91-96, 123-126. -/
def punctuation : List Char :=
  (List.range' 33 15 ++ List.range' 58 7 ++ List.range' 91 6 ++ List.range' 123 4).map Char.ofNat

/-- The strip set of `get_best_text`, line 18 of the source:
`string.punctuation` plus the quote variants and the underscore
(codes 96 and 95 are written numerically; both already occur in
`punctuation`, exactly as in the source's redundant concatenation). -/
def stripSet : List Char :=
  punctuation ++ ['‘', '’', '´', Char.ofNat 96, Char.ofNat 95]

/-- The per-token normalization applied by lines 20-21 of `get_best_text`:
lowercase, map stop tokens to `""`, otherwise strip the punctuation set. -/
def normTok (x : String) : String :=
  let l := pyLower x
  if l ∈ skip then "" else pyStrip stripSet l

/-- The insertion-ordered score accumulator of `get_best_text`
(`scores = defaultdict(float)`): an association list where a fresh key is
appended at the end, matching Python dict insertion order. -/
abbrev ScoreMap := List (List String × Rat)

/-- `scores[pred] += v` on the insertion-ordered accumulator. -/
def addScore : ScoreMap → List String → Rat → ScoreMap
  | [], key, v => [(key, v)]
  | (k, s) :: rest, key, v =>
    if k = key then (k, s + v) :: rest else (k, s) :: addScore rest key v

/-- Line 26 of the source: `tuple(x for x in text[start_ix:end_ix] if len(x) > 0)`.
Note the Python slice excludes index `end_ix`. -/
def spanKey (text2 : List String) (start_ix end_ix : Nat) : List String :=
  ((text2.drop start_ix).take (end_ix - start_ix)).filter (fun x => !x.isEmpty)

/-- The inner loop of `get_best_text` (lines 25-28): for
`end_ix in range(start_ix, min(start_ix + bound, len(word_end_probs)))`,
accumulate `prob * word_end_probs[end_ix]` under the candidate key when that
key is non-empty. -/
def innerLoop (text2 : List String) (word_end_probs : List Rat) (bound : Nat)
    (prob : Rat) (start_ix : Nat) (sc : ScoreMap) : ScoreMap :=
  (List.range' start_ix (min (start_ix + bound) word_end_probs.length - start_ix)).foldl
    (fun sc end_ix =>
      let pred := spanKey text2 start_ix end_ix
      if pred = [] then sc else addScore sc pred (prob * word_end_probs.getD end_ix 0))
    sc

/-- The double loop of `get_best_text` (lines 23-28) over all start indices. -/
def buildScores (word_start_probs word_end_probs : List Rat) (bound : Nat)
    (text2 : List String) : ScoreMap :=
  word_start_probs.enum.foldl
    (fun sc p => innerLoop text2 word_end_probs bound p.2 p.1 sc) []

/-- The selection loop of `get_best_text` (lines 30-36): strict `>` against the
running best, starting from `best_score = -1`, `best_word = None`. -/
def bestLoop : ScoreMap → Option (List String) → Rat → Option (List String) × Rat
  | [], best_word, best_score => (best_word, best_score)
  | (word, score) :: rest, best_word, best_score =>
    if score > best_score then bestLoop rest (some word) score
    else bestLoop rest best_word best_score

/-- `get_best_text(word_start_probs, word_end_probs, bound, text)`,
lines 16-36 of the source. -/
def get_best_text (word_start_probs word_end_probs : List Rat) (bound : Nat)
    (text : List String) : Option (List String) × Rat :=
  let text1 := text.map pyLower
  let text2 := text1.map (fun x => if x ∈ skip then "" else pyStrip stripSet x)
  bestLoop (buildScores word_start_probs word_end_probs bound text2) none (-1)

/-! ### Reference scoring (spec section 4.2)

`compute_span_f1`, `f1_score` and `exact_match_score` are imported by the
source from modules that are not under `src/`; they are modelled from the
spec's description of those collaborators. -/

/-- Python `s.split()`: split on whitespace, dropping empty chunks. -/
def splitWs (s : String) : List String :=
  ((s.data.splitOnP Char.isWhitespace).filter (fun w => !w.isEmpty)).map String.mk

/-- Modelled from the spec: the normalization shared by
`exact_match_score` and `f1_score` from `trivia_qa.trivia_qa_eval`
(not under `src/`): lowercase, remove punctuation, remove the articles
a/an/the, collapse whitespace. -/
def normalize_answer (s : String) : String :=
  let lowered := pyLower s
  let noPunc := String.mk (lowered.data.filter (fun c => !punctuation.contains c))
  let toks := (splitWs noPunc).filter (fun t => !(["a", "an", "the"] : List String).contains t)
  String.intercalate " " toks

/-- Modelled from the spec: `exact_match_score` from
`trivia_qa.trivia_qa_eval` (not under `src/`): exact equality of
normalized text, as a 0/1 score. -/
def trivia_em_score (prediction ground_truth : String) : Rat :=
  if normalize_answer prediction = normalize_answer ground_truth then 1 else 0

/-- Modelled from the spec: `f1_score` from `trivia_qa.trivia_qa_eval`
(not under `src/`): token-multiset overlap F1
`2*|intersection| / (|pred tokens| + |gold tokens|)`, and 0 when the
intersection is empty (hence also when either side has no tokens). -/
def trivia_f1_score (prediction ground_truth : String) : Rat :=
  let pt := splitWs (normalize_answer prediction)
  let gt := splitWs (normalize_answer ground_truth)
  let common := (pt.bagInter gt).length
  if common = 0 then 0 else (2 * common : Nat) / ((pt.length + gt.length : Nat) : Rat)

/-- Modelled from the spec: `compute_span_f1` from
`data_processing.span_data` (not under `src/`): span-overlap F1
`2*|overlap| / (pred length + gold length)` where the overlap is the size
of the intersection of the two inclusive integer ranges, 0 if disjoint. -/
def compute_span_f1 (answer_span pred_span : Span) : Rat :=
  let overlap : Int :=
    min (answer_span.2 : Int) (pred_span.2 : Int) + 1 -
      max (answer_span.1 : Int) (pred_span.1 : Int)
  if overlap ≤ 0 then 0
  else (2 * overlap : Int) /
    (((pred_span.2 : Int) - (pred_span.1 : Int) + 1 + ((answer_span.2 : Int) - (answer_span.1 : Int) + 1) : Int) : Rat)

/-- The fixed-order per-example score vector
`[span_correct, span_max_f1, text_correct, text_max_f1]` of
`trivia_span_scores` (line 66 of the source). -/
structure ScoreVec where
  span_exact : Rat
  span_f1 : Rat
  text_exact : Rat
  text_f1 : Rat
deriving DecidableEq

/-- The predicted text of a span, line 47 of the source:
`" ".join(flatten_iterable(para.context)[pred_span[0]:pred_span[1]+1])`. -/
def predText (para : ParagraphAndQuestion) (pred_span : Span) : String :=
  String.intercalate " "
    (((flatten_iterable para.context).drop pred_span.1).take (pred_span.2 + 1 - pred_span.1))

/-- The body of the per-example loop of `trivia_span_scores`
(lines 43-66): the two reference loops fold a membership flag and three
running maxima, all starting from 0/False. -/
def scoreOne (para : ParagraphAndQuestion) (ans : Answer) (pred_span : Span) : ScoreVec :=
  let pred_text := predText para pred_span
  let span_correct := ans.answer_spans.foldl (fun b s => b || decide (s = pred_span)) false
  let span_max_f1 := ans.answer_spans.foldl (fun m s => max m (compute_span_f1 s pred_span)) 0
  let text_correct := ans.answer_aliases.foldl (fun m t => max m (trivia_em_score pred_text t)) 0
  let text_max_f1 := ans.answer_aliases.foldl (fun m t => max m (trivia_f1_score pred_text t)) 0
  ⟨if span_correct then 1 else 0, span_max_f1, text_correct, text_max_f1⟩

/-- `trivia_span_scores(data, prediction)` (lines 39-67).  A missing
prediction is Python's `IndexError` on `prediction[i]`; an example whose
`answer` is `None` hits `ans.answer_spans` and is an `AttributeError`. -/
def trivia_span_scores : List ParagraphAndQuestion → List Span → Except String (List ScoreVec)
  | [], _ => .ok []
  | _ :: _, [] => .error "IndexError"
  | para :: rest, p :: ps =>
    match para.answer with
    | none => .error "AttributeError"
    | some ans =>
      match trivia_span_scores rest ps with
      | .error e => .error e
      | .ok svs => .ok (scoreOne para ans p :: svs)

/-- Modelled from the spec: the `Evaluation` container from `evaluator`
(not under `src/`) is a flat mapping from metric name to scalar;
`Evaluation.add` merges mappings.  With the distinct per-bound prefixes
used here, that merge is list concatenation. -/
abbrev Evaluation := List (String × Rat)

/-- Elementwise addition of score vectors (the reduction operation behind
`scores.sum(axis=0)`). -/
def svAdd (a v : ScoreVec) : ScoreVec :=
  ⟨a.span_exact + v.span_exact, a.span_f1 + v.span_f1,
    a.text_exact + v.text_exact, a.text_f1 + v.text_f1⟩

/-- The elementwise sum `scores.sum(axis=0)` of line 72. -/
def sumScores (svs : List ScoreVec) : ScoreVec :=
  svs.foldl
    (fun a v =>
      ⟨a.span_exact + v.span_exact, a.span_f1 + v.span_f1,
        a.text_exact + v.text_exact, a.text_f1 + v.text_f1⟩)
    ⟨0, 0, 0, 0⟩

/-- `trivia_span_evaluation(data, true_len, prediction, prefix)`
(lines 70-78): elementwise sum over examples divided by `true_len`,
labelled with the caller's prefix. -/
def trivia_span_evaluation (data : List ParagraphAndQuestion) (true_len : Rat)
    (prediction : List Span) (pre : String) : Except String Evaluation :=
  match trivia_span_scores data prediction with
  | .error e => .error e
  | .ok svs =>
    let s := sumScores svs
    .ok [(pre ++ "accuracy", s.span_exact / true_len),
         (pre ++ "f1", s.span_f1 / true_len),
         (pre ++ "text-accuracy", s.text_exact / true_len),
         (pre ++ "text-f1", s.text_f1 / true_len)]

/-! ### Evaluator variants (spec section 4.3) -/

/-- `[data[i] for i in with_answers]` in
`TriviaQaBoundedSpanEvaluator.evaluate` (lines 96-97, 103-104), where
`with_answers = [i for i in range(len(data)) if data[i].answer is not None]`. -/
def plainScoredData (data : List ParagraphAndQuestion) : List ParagraphAndQuestion :=
  data.filter (fun x => x.answer.isSome)

/-- `[spans[i] for i in with_answers]` for the same index set; the span and
example arrays are assumed index-aligned, as the source assumes. -/
def plainScoredSpans (data : List ParagraphAndQuestion) (spans : List Span) : List Span :=
  ((data.zip spans).filter (fun p => p.1.answer.isSome)).map (fun p => p.2)

/-- `TriviaQaBoundedSpanEvaluator.evaluate` (lines 90-106), in the branch
where per-example spans are already materialized (`kargs["span"]`): one
`trivia_span_evaluation` call per bound, each with its `"b<bound>/"`
prefix, merged in iteration order. -/
def plainEvaluate : List Nat → List ParagraphAndQuestion → List Span → Rat → Except String Evaluation
  | [], _, _, _ => .ok []
  | b :: bs, data, spans, true_len =>
    match trivia_span_evaluation (plainScoredData data) true_len
        (plainScoredSpans data spans) ("b" ++ toString b ++ "/") with
    | .error e => .error e
    | .ok ev =>
      match plainEvaluate bs data spans true_len with
      | .error e2 => .error e2
      | .ok rest => .ok (ev ++ rest)

/-- The comprehension of line 126,
`[i for i,x in enumerate(data) if len(x.answer.answer_spans) > 0]`, over
index-aligned `(example, span)` pairs: an example whose `answer` is `None`
raises (`AttributeError`), otherwise the pair is kept exactly when the
gold span set is non-empty. -/
def tfSelect : List (ParagraphAndQuestion × Span) → Except String (List (ParagraphAndQuestion × Span))
  | [] => .ok []
  | (x, s) :: rest =>
    match x.answer with
    | none => .error "AttributeError"
    | some a =>
      match tfSelect rest with
      | .error e => .error e
      | .ok sel => .ok (if a.answer_spans.isEmpty then sel else (x, s) :: sel)

/-- `TfTriviaQaBoundedSpanEvaluator.evaluate` (lines 122-129): the spans for
bound `b` come from `kargs["span_%d" % b]`, modelled as `spansFor b`. -/
def tfEvaluate : List Nat → List ParagraphAndQuestion → (Nat → List Span) → Rat → Except String Evaluation
  | [], _, _, _ => .ok []
  | b :: bs, data, spansFor, true_len =>
    match tfSelect (data.zip (spansFor b)) with
    | .error e => .error e
    | .ok sel =>
      match trivia_span_evaluation (sel.map (fun p => p.1)) true_len
          (sel.map (fun p => p.2)) ("b" ++ toString b ++ "/") with
      | .error e => .error e
      | .ok ev =>
        match tfEvaluate bs data spansFor true_len with
        | .error e2 => .error e2
        | .ok rest => .ok (ev ++ rest)

/-! ### The aggregated-text evaluator (lines 159-187)

Its loop state is `(total_f1, total_correct, correct)` where `correct` is
the function-scoped loop variable of line 181: it survives from one
example to the next and is `none` until its first assignment, so reading
it while `none` is Python's `NameError`. -/

/-- The alias loop of lines 179-183: each iteration assigns `correct` and
folds the two maxima (both started from 0 for each example). -/
def foldAliases (pred_text : String) (aliases : List String)
    (text_correct text_max_f1 : Rat) (correct : Option Rat) : Rat × Rat × Option Rat :=
  match aliases with
  | [] => (text_correct, text_max_f1, correct)
  | t :: ts =>
    let f1 := trivia_f1_score pred_text t
    let c := trivia_em_score pred_text t
    foldAliases pred_text ts (max text_correct c) (max text_max_f1 f1) (some c)

/-- One iteration of the example loop of
`TriviaqaAggregatedTextEvaluator.evaluate` (lines 174-185).  Joining a
`None` best text (line 177) is a `TypeError`; `doc.answer` being `None`
is an `AttributeError` at line 179; an unassigned `correct` at line 185
is a `NameError`.  On success the state gains `text_max_f1` and the
last-assigned `correct` (the source adds `correct`, not `text_correct`). -/
def aggStep (bound : Nat) (doc : ParagraphAndQuestion) (s e : List Rat)
    (st : Rat × Rat × Option Rat) : Except String (Rat × Rat × Option Rat) :=
  match (get_best_text s e bound (flatten_iterable doc.context)).1 with
  | none => .error "TypeError"
  | some ws =>
    let pred_text := String.intercalate " " ws
    match doc.answer with
    | none => .error "AttributeError"
    | some ans =>
      let r := foldAliases pred_text ans.answer_aliases 0 0 st.2.2
      match r.2.2 with
      | none => .error "NameError"
      | some c => .ok (st.1 + r.2.1, st.2.1 + c, some c)

/-- The example loop of lines 174-185, threading the shared state; a missing
probability row is Python's `IndexError` on `start[ix]` / `end[ix]`. -/
def aggLoop (bound : Nat) : List ParagraphAndQuestion → List (List Rat) → List (List Rat) →
    Rat × Rat × Option Rat → Except String (Rat × Rat)
  | [], _, _, st => .ok (st.1, st.2.1)
  | doc :: docs, s :: ss, e :: es, st =>
    match aggStep bound doc s e st with
    | .error msg => .error msg
    | .ok st2 => aggLoop bound docs ss es st2
  | _ :: _, _, _, _ => .error "IndexError"

/-- `TriviaqaAggregatedTextEvaluator.evaluate` (lines 168-187). -/
def aggEvaluate (bound : Nat) (input : List ParagraphAndQuestion)
    (starts ends : List (List Rat)) (true_len : Rat) : Except String Evaluation :=
  match aggLoop bound input starts ends (0, 0, none) with
  | .error msg => .error msg
  | .ok (total_f1, total_correct) =>
    .ok [("agg-text-f1", total_f1 / true_len), ("agg-text-em", total_correct / true_len)]

/-! ### Theorems -/

theorem normTok_eq_maps (text : List String) :
    (text.map pyLower).map (fun x => if x ∈ skip then "" else pyStrip stripSet x)
      = text.map normTok := by
  rw [List.map_map]
  rfl

/-! #### Generic fold lemmas -/

theorem le_foldl_max {α : Type} (f : α → Rat) (l : List α) (init : Rat) :
    init ≤ l.foldl (fun m a => max m (f a)) init := by
  induction l generalizing init with
  | nil => exact le_refl _
  | cons a l ih =>
    exact le_trans (le_max_left init (f a)) (ih (max init (f a)))

theorem mem_le_foldl_max {α : Type} (f : α → Rat) (l : List α) :
    ∀ (init : Rat) (x : α), x ∈ l → f x ≤ l.foldl (fun m a => max m (f a)) init := by
  induction l with
  | nil => intro init x hx; cases hx
  | cons a l ih =>
    intro init x hx
    rcases List.mem_cons.mp hx with h | h
    · subst h
      exact le_trans (le_max_right init (f x)) (le_foldl_max f l (max init (f x)))
    · exact ih (max init (f a)) x h

theorem foldl_max_eq_init_or_mem {α : Type} (f : α → Rat) (l : List α) (init : Rat) :
    l.foldl (fun m a => max m (f a)) init = init ∨
      ∃ x ∈ l, l.foldl (fun m a => max m (f a)) init = f x := by
  induction l generalizing init with
  | nil => exact Or.inl rfl
  | cons a l ih =>
    rcases ih (max init (f a)) with h | ⟨x, hx, hfx⟩
    · rcases max_choice init (f a) with hm | hm
      · exact Or.inl (by rw [List.foldl_cons, h, hm])
      · exact Or.inr ⟨a, List.mem_cons_self a l, by rw [List.foldl_cons, h, hm]⟩
    · exact Or.inr ⟨x, List.mem_cons_of_mem a hx, hfx⟩

theorem foldl_or_mem (p : Span) (l : List Span) (b : Bool) :
    l.foldl (fun acc s => acc || decide (s = p)) b = (b || decide (p ∈ l)) := by
  induction l generalizing b with
  | nil => simp
  | cons a l ih =>
    rw [List.foldl_cons, ih]
    simp [List.mem_cons, Bool.or_assoc, eq_comm (a := p) (b := a)]

/-! #### The selection loop: strict improvement, first-seen maximum wins -/

theorem bestLoop_spec (l : ScoreMap) (bw : Option (List String)) (bs : Rat) :
    ((∀ q ∈ l, q.2 ≤ bs) ∧ bestLoop l bw bs = (bw, bs)) ∨
      (∃ pre p post, l = pre ++ p :: post ∧ bs < p.2 ∧ (∀ q ∈ l, q.2 ≤ p.2) ∧
        (∀ q ∈ pre, q.2 < p.2) ∧ bestLoop l bw bs = (some p.1, p.2)) := by
  induction l generalizing bw bs with
  | nil => exact Or.inl ⟨fun q hq => absurd hq (List.not_mem_nil q), rfl⟩
  | cons a l ih =>
    by_cases hgt : a.2 > bs
    · have hstep : bestLoop (a :: l) bw bs = bestLoop l (some a.1) a.2 := by
        rcases a with ⟨w, s⟩
        rw [bestLoop, if_pos hgt]
      rcases ih (some a.1) a.2 with ⟨hall, heq⟩ | ⟨pre, p, post, hl, hlt, hall, hpre, heq⟩
      · refine Or.inr ⟨[], a, l, rfl, hgt, ?_, ?_, ?_⟩
        · intro q hq
          rcases List.mem_cons.mp hq with h | h
          · exact h ▸ le_refl _
          · exact hall q h
        · intro q hq; cases hq
        · rw [hstep, heq]
      · refine Or.inr ⟨a :: pre, p, post, by rw [hl, List.cons_append], lt_trans hgt hlt, ?_, ?_,
          by rw [hstep, heq]⟩
        · intro q hq
          rcases List.mem_cons.mp hq with h | h
          · exact h ▸ le_of_lt hlt
          · exact hall q h
        · intro q hq
          rcases List.mem_cons.mp hq with h | h
          · exact h ▸ hlt
          · exact hpre q h
    · have hle : a.2 ≤ bs := not_lt.mp hgt
      have hstep : bestLoop (a :: l) bw bs = bestLoop l bw bs := by
        rcases a with ⟨w, s⟩
        rw [bestLoop, if_neg hgt]
      rcases ih bw bs with ⟨hall, heq⟩ | ⟨pre, p, post, hl, hlt, hall, hpre, heq⟩
      · refine Or.inl ⟨?_, by rw [hstep, heq]⟩
        intro q hq
        rcases List.mem_cons.mp hq with h | h
        · exact h ▸ hle
        · exact hall q h
      · refine Or.inr ⟨a :: pre, p, post, by rw [hl, List.cons_append], hlt, ?_, ?_,
          by rw [hstep, heq]⟩
        · intro q hq
          rcases List.mem_cons.mp hq with h | h
          · exact h ▸ le_trans hle (le_of_lt hlt)
          · exact hall q h
        · intro q hq
          rcases List.mem_cons.mp hq with h | h
          · exact h ▸ lt_of_le_of_lt hle hlt
          · exact hpre q h

/-! #### Normalization lemmas -/

theorem toLower_toNat_valid (n : Nat) (hv : Nat.isValidChar n) :
    (Char.ofNat n).toNat = n := by
  rw [Char.ofNat, dif_pos hv]
  simp [Char.ofNatAux, Char.toNat, UInt32.toNat]

theorem toLower_idem (c : Char) : c.toLower.toLower = c.toLower := by
  unfold Char.toLower
  by_cases h : c.toNat ≥ 65 ∧ c.toNat ≤ 90
  · have hv : Nat.isValidChar (c.toNat + 32) := Or.inl (by omega)
    have ht : (Char.ofNat (c.toNat + 32)).toNat = c.toNat + 32 :=
      toLower_toNat_valid _ hv
    simp only [if_pos h, ht]
    rw [if_neg (by omega)]
  · simp only [if_neg h]

theorem map_eq_self_of_fixed {α : Type} (f : α → α) (l : List α)
    (h : ∀ a ∈ l, f a = a) : l.map f = l := by
  induction l with
  | nil => rfl
  | cons a l ih =>
    rw [List.map_cons, h a (List.mem_cons_self a l), ih (fun b hb => h b (List.mem_cons_of_mem a hb))]

theorem head_dropWhile_false (p : Char → Bool) :
    ∀ (l : List Char) (a : Char), (l.dropWhile p).head? = some a → p a = false := by
  intro l
  induction l with
  | nil => intro a ha; cases ha
  | cons x xs ih =>
    intro a ha
    by_cases hx : p x
    · rw [List.dropWhile_cons_of_pos hx] at ha
      exact ih a ha
    · rw [List.dropWhile_cons_of_neg hx] at ha
      cases ha
      simpa using hx

theorem dropWhile_eq_self_of_head (p : Char → Bool) (l : List Char)
    (h : ∀ a, l.head? = some a → p a = false) : l.dropWhile p = l := by
  cases l with
  | nil => rfl
  | cons x xs =>
    have := h x rfl
    rw [List.dropWhile_cons_of_neg (by simp [this])]

theorem stripBoth_idem (p : Char → Bool) (l : List Char) :
    stripBoth p (stripBoth p l) = stripBoth p l := by
  have hdrop : (stripBoth p l).dropWhile p = stripBoth p l := by
    apply dropWhile_eq_self_of_head
    intro a ha
    obtain ⟨t, ht⟩ := List.rdropWhile_prefix p (l.dropWhile p)
    have ha' : (List.rdropWhile p (l.dropWhile p)).head? = some a := ha
    have hd : (l.dropWhile p).head? = some a := by
      rw [← ht]
      cases hcase : List.rdropWhile p (l.dropWhile p) with
      | nil => rw [hcase] at ha'; cases ha'
      | cons y ys => rw [hcase] at ha'; simpa using ha'
    exact head_dropWhile_false p l a hd
  show ((stripBoth p l).dropWhile p).rdropWhile p = stripBoth p l
  rw [hdrop]
  exact List.rdropWhile_idempotent p (l.dropWhile p)

theorem mem_of_mem_stripBoth (p : Char → Bool) (l : List Char) (c : Char)
    (hc : c ∈ stripBoth p l) : c ∈ l := by
  have h1 : c ∈ (l.dropWhile p).rdropWhile p := hc
  have h2 : c ∈ l.dropWhile p := by
    obtain ⟨t, ht⟩ := List.rdropWhile_prefix p (l.dropWhile p)
    rw [← ht]
    exact List.mem_append_left t h1
  exact (List.dropWhile_sublist p).subset h2

theorem pyLower_fixed_of_strip (t : String) :
    pyLower (pyStrip stripSet (pyLower t)) = pyStrip stripSet (pyLower t) := by
  show String.mk ((stripBoth (fun c => stripSet.contains c) (t.data.map Char.toLower)).map Char.toLower)
    = String.mk (stripBoth (fun c => stripSet.contains c) (t.data.map Char.toLower))
  refine congrArg String.mk (map_eq_self_of_fixed Char.toLower _ ?_)
  intro c hc
  have hm := mem_of_mem_stripBoth _ _ c hc
  obtain ⟨c0, _, hc0⟩ := List.mem_map.mp hm
  rw [← hc0]
  exact toLower_idem c0

theorem pyStrip_idem (t : String) :
    pyStrip stripSet (pyStrip stripSet t) = pyStrip stripSet t := by
  show String.mk (stripBoth (fun c => stripSet.contains c) (stripBoth (fun c => stripSet.contains c) t.data))
    = String.mk (stripBoth (fun c => stripSet.contains c) t.data)
  rw [stripBoth_idem]

/-! #### Empty search windows -/

theorem spanKey_self (text2 : List String) (i : Nat) : spanKey text2 i i = [] := by
  unfold spanKey
  rw [Nat.sub_self, List.take_zero, List.filter_nil]

theorem innerLoop_bound_le_one (text2 : List String) (we : List Rat) (bound : Nat)
    (prob : Rat) (start_ix : Nat) (sc : ScoreMap) (hb : bound ≤ 1) :
    innerLoop text2 we bound prob start_ix sc = sc := by
  unfold innerLoop
  have hn : min (start_ix + bound) we.length - start_ix = 0 ∨
      min (start_ix + bound) we.length - start_ix = 1 := by
    have := Nat.min_le_left (start_ix + bound) we.length
    omega
  rcases hn with hn | hn
  · rw [hn]
    rfl
  · rw [hn]
    show (if spanKey text2 start_ix start_ix = [] then sc
      else addScore sc (spanKey text2 start_ix start_ix) (prob * we.getD start_ix 0)) = sc
    rw [if_pos (spanKey_self text2 start_ix)]

theorem buildScores_bound_le_one (ws we : List Rat) (bound : Nat)
    (text2 : List String) (hb : bound ≤ 1) :
    buildScores ws we bound text2 = [] := by
  unfold buildScores
  exact List.foldl_fixed' (fun p => innerLoop_bound_le_one text2 we bound p.2 p.1 [] hb) _

/-! #### Scorer-level lemmas -/

theorem trivia_span_scores_get (data : List ParagraphAndQuestion) (pred : List Span)
    (svs : List ScoreVec) (h : trivia_span_scores data pred = .ok svs) :
    svs.length = data.length ∧
      ∀ (i : Nat) (hi : i < data.length) (hp : i < pred.length),
        ∃ ans, (data.get ⟨i, hi⟩).answer = some ans ∧
          svs.get? i = some (scoreOne (data.get ⟨i, hi⟩) ans (pred.get ⟨i, hp⟩)) := by
  induction data generalizing pred svs with
  | nil =>
    cases pred with
    | nil =>
      cases h
      exact ⟨rfl, fun i hi _ => absurd hi (by simp)⟩
    | cons p ps =>
      cases h
      exact ⟨rfl, fun i hi _ => absurd hi (by simp)⟩
  | cons d ds ih =>
    cases pred with
    | nil => cases h
    | cons p ps =>
      simp only [trivia_span_scores] at h
      cases hans : d.answer with
      | none => rw [hans] at h; cases h
      | some ans =>
        rw [hans] at h
        cases hrest : trivia_span_scores ds ps with
        | error e => rw [hrest] at h; cases h
        | ok svs' =>
          rw [hrest] at h
          cases h
          obtain ⟨hlen, hget⟩ := ih ps svs' hrest
          refine ⟨by simp [hlen], ?_⟩
          intro i hi hp
          cases i with
          | zero => exact ⟨ans, hans, rfl⟩
          | succ j =>
            obtain ⟨ans', ha', hg'⟩ := hget j (Nat.lt_of_succ_lt_succ hi) (Nat.lt_of_succ_lt_succ hp)
            exact ⟨ans', ha', hg'⟩

theorem trivia_span_scores_append (d1 : List ParagraphAndQuestion) (p1 : List Span)
    (s1 : List ScoreVec) (d2 : List ParagraphAndQuestion) (p2 : List Span)
    (s2 : List ScoreVec) (hl : d1.length = p1.length)
    (h1 : trivia_span_scores d1 p1 = .ok s1) (h2 : trivia_span_scores d2 p2 = .ok s2) :
    trivia_span_scores (d1 ++ d2) (p1 ++ p2) = .ok (s1 ++ s2) := by
  induction d1 generalizing p1 s1 with
  | nil =>
    cases p1 with
    | nil => cases h1; simpa using h2
    | cons q qs => cases hl
  | cons d ds ih =>
    cases p1 with
    | nil => cases h1
    | cons q qs =>
      simp only [trivia_span_scores] at h1
      cases hans : d.answer with
      | none => rw [hans] at h1; cases h1
      | some ans =>
        rw [hans] at h1
        cases hrest : trivia_span_scores ds qs with
        | error e => rw [hrest] at h1; cases h1
        | ok svs' =>
          rw [hrest] at h1
          cases h1
          have hind := ih qs svs' (by simpa using hl) hrest
          show trivia_span_scores (d :: (ds ++ d2)) (q :: (qs ++ p2))
            = Except.ok (scoreOne d ans q :: (svs' ++ s2))
          simp only [trivia_span_scores, hans]
          have hind' : trivia_span_scores (ds.append d2) (qs.append p2)
              = Except.ok (svs' ++ s2) := hind
          rw [hind]

theorem sumScores_eq_foldl_svAdd (svs : List ScoreVec) :
    sumScores svs = svs.foldl svAdd ⟨0, 0, 0, 0⟩ := rfl

theorem foldl_svAdd_init (svs : List ScoreVec) (a : ScoreVec) :
    svs.foldl svAdd a = svAdd a (svs.foldl svAdd ⟨0, 0, 0, 0⟩) := by
  induction svs generalizing a with
  | nil =>
    simp only [List.foldl_nil, svAdd]
    rcases a with ⟨a1, a2, a3, a4⟩
    simp
  | cons v vs ih =>
    rw [List.foldl_cons, List.foldl_cons, ih (svAdd a v), ih (svAdd ⟨0, 0, 0, 0⟩ v)]
    rcases a with ⟨a1, a2, a3, a4⟩
    rcases v with ⟨v1, v2, v3, v4⟩
    rcases vs.foldl svAdd ⟨0, 0, 0, 0⟩ with ⟨w1, w2, w3, w4⟩
    simp only [svAdd, ScoreVec.mk.injEq]
    refine ⟨by ring, by ring, by ring, by ring⟩

theorem sumScores_append (s1 s2 : List ScoreVec) :
    sumScores (s1 ++ s2) = svAdd (sumScores s1) (sumScores s2) := by
  rw [sumScores_eq_foldl_svAdd, sumScores_eq_foldl_svAdd, sumScores_eq_foldl_svAdd,
    List.foldl_append, foldl_svAdd_init]

/-! #### The shared `correct` variable of the aggregated-text evaluator -/

theorem foldAliases_cons (pred_text t : String) (ts : List String)
    (tc tf : Rat) (lc : Option Rat) :
    foldAliases pred_text (t :: ts) tc tf lc =
      foldAliases pred_text ts (max tc (trivia_em_score pred_text t))
        (max tf (trivia_f1_score pred_text t)) (some (trivia_em_score pred_text t)) := rfl

theorem foldAliases_snd (pred_text : String) (aliases : List String) :
    ∀ (tc tf : Rat) (lc : Option Rat) (h : aliases ≠ []),
      (foldAliases pred_text aliases tc tf lc).2.2 =
        some (trivia_em_score pred_text (aliases.getLast h)) := by
  induction aliases with
  | nil => intro tc tf lc h; exact absurd rfl h
  | cons t ts ih =>
    intro tc tf lc h
    cases ts with
    | nil => rfl
    | cons t2 ts2 =>
      rw [foldAliases_cons, ih _ _ _ (List.cons_ne_nil t2 ts2),
        List.getLast_cons (List.cons_ne_nil t2 ts2)]

theorem foldAliases_nil_state (pred_text : String) (tc tf : Rat) (lc : Option Rat) :
    foldAliases pred_text [] tc tf lc = (tc, tf, lc) := rfl

/-! ### Claim theorems -/

/-- Claim C1 (code bug): on an example whose aggregated best text is
"paris" and whose alias list is `["Paris", "London"]`, line 185's
`total_correct += correct` adds the exact-match score of the LAST iterated
alias (0, for "London") into the agg-text-em total, although the maximum
over the example's aliases is 1; the computed `text_correct` maximum is
never used. -/
theorem claim_C1_agg_em_uses_last_alias :
    aggEvaluate 2 [⟨[["paris", "x"]], some ⟨[], ["Paris", "London"]⟩⟩] [[1, 0]] [[0, 1]] 1
        = .ok [("agg-text-f1", 1), ("agg-text-em", 0)] ∧
      max (trivia_em_score "paris" "Paris") (trivia_em_score "paris" "London") = 1 := by
  decide

/-- Claim C2 (code bug): the candidate key of `get_best_text` comes from the
slice `text[start_ix:end_ix]`, which EXCLUDES position `end_ix`: with
`start_probs = [1]`, `end_probs = [1]`, `bound = 2`, `text = ["paris"]`, the
only iterated pair is `(0, 0)` whose slice is empty, so nothing is ever
accumulated and the null result is returned, although the claimed inclusive
tuple `("paris",)` normalizes to itself and would accumulate probability 1. -/
theorem claim_C2_slice_excludes_end_index :
    get_best_text [1] [1] 2 ["paris"] = (none, -1) ∧
      spanKey (["paris"].map normTok) 0 0 = [] ∧ normTok "paris" = "paris" := by
  decide

/-- Claim C3 (code bug): when every candidate span normalizes to the empty
tuple, `get_best_text` does return the null result, but the aggregated-text
evaluator does not treat it as a sentinel: line 177 joins the `None` best
text and raises a `TypeError` instead of returning a metric mapping. -/
theorem claim_C3_caller_crashes_on_null :
    get_best_text [1] [1] 5 ["the"] = (none, -1) ∧
      aggEvaluate 5 [⟨[["the"]], some ⟨[], ["x"]⟩⟩] [[1]] [[1]] 1 = .error "TypeError" := by
  decide

/-- Claim C5 counterexample: token normalization is NOT idempotent: `"a."` is
not a stop token, so it is stripped to `"a"`, but normalizing `"a"` again
maps the now-bare article to `""`. -/
theorem claim_C5_counterexample :
    normTok "a." = "a" ∧ normTok (normTok "a.") = "" ∧
      normTok (normTok "a.") ≠ normTok "a." := by
  decide

/-- Claim C5 (amended): token normalization is idempotent for every token
whose normalized form is not itself one of the article stop tokens
`"a"`, `"an"`, `"the"` (for those, a second pass maps the bare article to
the empty string). -/
theorem claim_C5_amended_idempotent (t : String) (h1 : normTok t ≠ "a")
    (h2 : normTok t ≠ "an") (h3 : normTok t ≠ "the") :
    normTok (normTok t) = normTok t := by
  by_cases hskip : pyLower t ∈ skip
  · have ht : normTok t = "" := by
      show (if pyLower t ∈ skip then "" else pyStrip stripSet (pyLower t)) = ""
      rw [if_pos hskip]
    rw [ht]
    decide
  · have ht : normTok t = pyStrip stripSet (pyLower t) := by
      show (if pyLower t ∈ skip then "" else pyStrip stripSet (pyLower t)) = _
      rw [if_neg hskip]
    rw [ht] at h1 h2 h3 ⊢
    have hlow : pyLower (pyStrip stripSet (pyLower t)) = pyStrip stripSet (pyLower t) :=
      pyLower_fixed_of_strip t
    by_cases hsk2 : pyLower (pyStrip stripSet (pyLower t)) ∈ skip
    · have hse : pyStrip stripSet (pyLower t) = "" := by
        rw [hlow] at hsk2
        simp only [skip, List.mem_cons, List.not_mem_nil, or_false] at hsk2
        rcases hsk2 with h | h | h | h
        · exact absurd h h1
        · exact absurd h h2
        · exact absurd h h3
        · exact h
      show (if pyLower (pyStrip stripSet (pyLower t)) ∈ skip then ""
        else pyStrip stripSet (pyLower (pyStrip stripSet (pyLower t)))) = pyStrip stripSet (pyLower t)
      rw [if_pos hsk2, hse]
    · show (if pyLower (pyStrip stripSet (pyLower t)) ∈ skip then ""
        else pyStrip stripSet (pyLower (pyStrip stripSet (pyLower t)))) = pyStrip stripSet (pyLower t)
      rw [if_neg hsk2, hlow]
      exact pyStrip_idem (pyLower t)

/-- Claim C5 witness: the amended idempotence applied at `"x."`,
which normalizes to `"x"` and is stable under a second pass. -/
theorem claim_C5_amended_witness :
    (normTok "x." ≠ "a" ∧ normTok "x." ≠ "an" ∧ normTok "x." ≠ "the") ∧
      normTok (normTok "x.") = normTok "x." :=
  ⟨⟨by decide, by decide, by decide⟩,
    claim_C5_amended_idempotent "x." (by decide) (by decide) (by decide)⟩

/-- Claim C9: whenever `bound ≤ 1`, `get_best_text` returns the null result
`(none, -1)`: for the only admissible end index (equal to the start index)
the candidate slice `text[start_ix:end_ix]` is empty, so no span — in
particular no single-word span — ever contributes probability mass. -/
theorem claim_C9_bound_le_one_yields_none (ws we : List Rat) (bound : Nat)
    (text : List String) (hb : bound ≤ 1) :
    get_best_text ws we bound text = (none, -1) := by
  show bestLoop (buildScores ws we bound
    ((text.map pyLower).map (fun x => if x ∈ skip then "" else pyStrip stripSet x))) none (-1)
    = (none, -1)
  rw [buildScores_bound_le_one _ _ _ _ hb]
  rfl

/-- Claim C9 witness: concrete instance at `bound = 1`. -/
theorem claim_C9_witness :
    1 ≤ 1 ∧ get_best_text [1, 1] [1, 1] 1 ["x", "y"] = (none, -1) :=
  ⟨le_refl 1, claim_C9_bound_le_one_yields_none [1, 1] [1, 1] 1 ["x", "y"] (le_refl 1)⟩

/-- Claim C6: when at least one candidate tuple is keyed and totals are
non-negative (as with probability inputs), `get_best_text` returns a keyed
tuple whose accumulated total is greatest, and every tuple inserted before
the winner has a strictly smaller total — the first-seen maximum wins an
exact tie, never a later one. -/
theorem claim_C6_first_seen_max_wins (ws we : List Rat) (bound : Nat) (text : List String)
    (hne : buildScores ws we bound (text.map normTok) ≠ [])
    (hnn : ∀ q ∈ buildScores ws we bound (text.map normTok), 0 ≤ q.2) :
    ∃ pre p post,
      buildScores ws we bound (text.map normTok) = pre ++ p :: post ∧
      get_best_text ws we bound text = (some p.1, p.2) ∧
      (∀ q ∈ buildScores ws we bound (text.map normTok), q.2 ≤ p.2) ∧
      (∀ q ∈ pre, q.2 < p.2) := by
  have hrw : get_best_text ws we bound text
      = bestLoop (buildScores ws we bound (text.map normTok)) none (-1) := by
    show bestLoop (buildScores ws we bound
      ((text.map pyLower).map (fun x => if x ∈ skip then "" else pyStrip stripSet x))) none (-1) = _
    rw [normTok_eq_maps]
  rcases bestLoop_spec (buildScores ws we bound (text.map normTok)) none (-1) with
    ⟨hall, _⟩ | ⟨pre, p, post, hl, _, hall, hpre, heq⟩
  · exfalso
    obtain ⟨q, hq⟩ := List.exists_mem_of_ne_nil _ hne
    have hle := hall q hq
    have hge := hnn q hq
    linarith
  · exact ⟨pre, p, post, hl, by rw [hrw, heq], hall, hpre⟩

/-- Claim C6 witness: with mass only on the candidate `("x",)`, the winner is
that first (and only) keyed tuple with its accumulated total 1. -/
theorem claim_C6_witness :
    (buildScores [1, 1] [1, 1] 3 (["x", "y"].map normTok) ≠ [] ∧
      (∀ q ∈ buildScores [1, 1] [1, 1] 3 (["x", "y"].map normTok), 0 ≤ q.2)) ∧
    ∃ pre p post,
      buildScores [1, 1] [1, 1] 3 (["x", "y"].map normTok) = pre ++ p :: post ∧
      get_best_text [1, 1] [1, 1] 3 ["x", "y"] = (some p.1, p.2) ∧
      (∀ q ∈ buildScores [1, 1] [1, 1] 3 (["x", "y"].map normTok), q.2 ≤ p.2) ∧
      (∀ q ∈ pre, q.2 < p.2) :=
  ⟨⟨by decide, by decide⟩,
    claim_C6_first_seen_max_wins [1, 1] [1, 1] 3 ["x", "y"] (by decide) (by decide)⟩

/-- Claim C10: (1) whenever the first example's alias set is empty (and its
best text exists, so line 177 does not fail first), the evaluator reads the
never-assigned loop variable `correct` at line 185 and raises; (2) a later
example with an empty alias set silently adds the `correct` value left over
from the previous example — the exact-match score of that example's last
alias — to the agg-text-em total, instead of contributing 0. -/
theorem claim_C10_correct_unassigned_and_reused :
    (∀ (bound : Nat) (d : ParagraphAndQuestion) (rest : List ParagraphAndQuestion)
        (s e : List Rat) (ss es : List (List Rat)) (tl : Rat) (ans : Answer),
        d.answer = some ans → ans.answer_aliases = [] →
        (get_best_text s e bound (flatten_iterable d.context)).1.isSome →
        aggEvaluate bound (d :: rest) (s :: ss) (e :: es) tl = .error "NameError") ∧
    (∀ (bound : Nat) (d1 d2 : ParagraphAndQuestion) (s1 e1 s2 e2 : List Rat) (tl : Rat)
        (ans1 ans2 : Answer) (ws1 : List String)
        (h1 : d1.answer = some ans1) (hne : ans1.answer_aliases ≠ [])
        (h2 : d2.answer = some ans2) (h2e : ans2.answer_aliases = [])
        (hb1 : (get_best_text s1 e1 bound (flatten_iterable d1.context)).1 = some ws1)
        (hb2 : (get_best_text s2 e2 bound (flatten_iterable d2.context)).1.isSome),
        ∃ f1tot,
          aggEvaluate bound [d1, d2] [s1, s2] [e1, e2] tl = .ok
            [("agg-text-f1", f1tot),
             ("agg-text-em",
               (trivia_em_score (String.intercalate " " ws1) (ans1.answer_aliases.getLast hne) +
                 trivia_em_score (String.intercalate " " ws1) (ans1.answer_aliases.getLast hne)) / tl)]) := by
  constructor
  · intro bound d rest s e ss es tl ans ha hal hbt
    obtain ⟨ws, hws⟩ := Option.isSome_iff_exists.mp hbt
    have hstep : aggStep bound d s e (0, 0, none) = .error "NameError" := by
      simp only [aggStep, hws, ha, hal]
      rfl
    simp only [aggEvaluate, aggLoop, hstep]
  · intro bound d1 d2 s1 e1 s2 e2 tl ans1 ans2 ws1 h1 hne h2 h2e hb1 hb2
    obtain ⟨ws2, hws2⟩ := Option.isSome_iff_exists.mp hb2
    have hsnd := foldAliases_snd (String.intercalate " " ws1) ans1.answer_aliases 0 0 none hne
    have hstep1 : aggStep bound d1 s1 e1 (0, 0, none) = .ok
        (0 + (foldAliases (String.intercalate " " ws1) ans1.answer_aliases 0 0 none).2.1,
          0 + trivia_em_score (String.intercalate " " ws1) (ans1.answer_aliases.getLast hne),
          some (trivia_em_score (String.intercalate " " ws1) (ans1.answer_aliases.getLast hne))) := by
      simp only [aggStep, hb1, h1, hsnd]
    have hstep2 : ∀ (st : Rat × Rat × Option Rat) (c : Rat), st.2.2 = some c →
        aggStep bound d2 s2 e2 st = .ok (st.1 + 0, st.2.1 + c, some c) := by
      intro st c hst
      simp only [aggStep, hws2, h2, h2e, foldAliases_nil_state, hst]
    refine ⟨(0 + (foldAliases (String.intercalate " " ws1) ans1.answer_aliases 0 0 none).2.1 + 0) / tl, ?_⟩
    have hloop := hstep2
      (0 + (foldAliases (String.intercalate " " ws1) ans1.answer_aliases 0 0 none).2.1,
        0 + trivia_em_score (String.intercalate " " ws1) (ans1.answer_aliases.getLast hne),
        some (trivia_em_score (String.intercalate " " ws1) (ans1.answer_aliases.getLast hne)))
      (trivia_em_score (String.intercalate " " ws1) (ans1.answer_aliases.getLast hne)) rfl
    simp only [aggEvaluate, aggLoop, hstep1, hloop]
    congr 2
    rw [zero_add]

/-- Claim C10 witness: a first example with no aliases raises; a batch whose
second example has no aliases double-counts the first example's last-alias
score (the agg-text-em total becomes 1 + 1 over a `true_len` of 1). -/
theorem claim_C10_witness :
    ((get_best_text [1, 1] [1, 1] 3 ["x", "y"]).1 = some ["x"]) ∧
    (aggEvaluate 3 [⟨[["x", "y"]], some ⟨[], []⟩⟩] [[1, 1]] [[1, 1]] 1 = .error "NameError") ∧
    (∃ f1tot,
      aggEvaluate 3 [⟨[["x", "y"]], some ⟨[], ["x"]⟩⟩, ⟨[["x", "y"]], some ⟨[], []⟩⟩]
          [[1, 1], [1, 1]] [[1, 1], [1, 1]] 1 = .ok
        [("agg-text-f1", f1tot),
         ("agg-text-em",
           (trivia_em_score (String.intercalate " " ["x"]) ((["x"] : List String).getLast (by decide)) +
             trivia_em_score (String.intercalate " " ["x"]) ((["x"] : List String).getLast (by decide))) / 1)]) :=
  ⟨by decide,
   claim_C10_correct_unassigned_and_reused.1 3 ⟨[["x", "y"]], some ⟨[], []⟩⟩ [] [1, 1] [1, 1]
     [] [] 1 ⟨[], []⟩ rfl rfl (by decide),
   claim_C10_correct_unassigned_and_reused.2 3 ⟨[["x", "y"]], some ⟨[], ["x"]⟩⟩
     ⟨[["x", "y"]], some ⟨[], []⟩⟩ [1, 1] [1, 1] [1, 1] [1, 1] 1 ⟨[], ["x"]⟩ ⟨[], []⟩ ["x"]
     rfl (by decide) rfl rfl (by decide) (by decide)⟩

/-- On index-aligned data whose answers are all present, `tfSelect` succeeds
and keeps exactly the examples with a non-empty gold span set. -/
theorem tfSelect_ok (data : List ParagraphAndQuestion) :
    ∀ (spans : List Span), data.length = spans.length →
      (∀ x ∈ data, x.answer.isSome) →
      ∃ sel, tfSelect (data.zip spans) = .ok sel ∧
        sel.map (fun p => p.1) = data.filter
          (fun x => match x.answer with
            | some a => !a.answer_spans.isEmpty
            | none => false) := by
  induction data with
  | nil => exact fun spans _ _ => ⟨[], rfl, rfl⟩
  | cons d ds ih =>
    intro spans hl hs
    cases spans with
    | nil => cases hl
    | cons sp sps =>
      obtain ⟨ans, hans⟩ := Option.isSome_iff_exists.mp (hs d (List.mem_cons_self d ds))
      obtain ⟨sel, hsel, hmap⟩ := ih sps (by simpa using hl)
        (fun x hx => hs x (List.mem_cons_of_mem d hx))
      have hsel' : tfSelect (List.zipWith Prod.mk ds sps) = Except.ok sel := hsel
      by_cases he : ans.answer_spans.isEmpty
      · refine ⟨sel, ?_, ?_⟩
        · simp [List.zip_cons_cons, tfSelect, hans, hsel', he]
        · rw [hmap, List.filter_cons, if_neg (by simp [hans, he])]
      · refine ⟨(d, sp) :: sel, ?_, ?_⟩
        · simp [List.zip_cons_cons, tfSelect, hans, hsel', he]
        · rw [List.map_cons, hmap, List.filter_cons, if_pos (by simp [hans, he])]

/-- Claim C4 counterexample: an example whose answer object is present but
whose gold span set is empty IS scored by `TriviaQaBoundedSpanEvaluator`
(its filter only tests `answer is not None`): the example's alias match
contributes a non-zero text metric, which exclusion would have made 0. -/
theorem claim_C4_counterexample :
    plainScoredData [⟨[["x"]], some ⟨[], ["x"]⟩⟩] = [⟨[["x"]], some ⟨[], ["x"]⟩⟩] ∧
    plainEvaluate [1] [⟨[["x"]], some ⟨[], ["x"]⟩⟩] [(0, 0)] 1
      = .ok [("b1/accuracy", 0), ("b1/f1", 0), ("b1/text-accuracy", 1), ("b1/text-f1", 1)] := by
  decide

/-- Claim C4 (amended): only `TfTriviaQaBoundedSpanEvaluator` scores exactly
the examples with at least one gold span; `TriviaQaBoundedSpanEvaluator`
scores exactly the examples whose answer is not `None`, which includes
examples with an empty gold-span set. -/
theorem claim_C4_amended_filters (data : List ParagraphAndQuestion) (spans : List Span) :
    (∀ x, x ∈ plainScoredData data ↔ x ∈ data ∧ x.answer.isSome) ∧
    (data.length = spans.length → (∀ x ∈ data, x.answer.isSome) →
      ∃ sel, tfSelect (data.zip spans) = .ok sel ∧
        sel.map (fun p => p.1) = data.filter
          (fun x => match x.answer with
            | some a => !a.answer_spans.isEmpty
            | none => false)) := by
  constructor
  · intro x
    simp [plainScoredData, List.mem_filter]
  · exact tfSelect_ok data spans

/-- Claim C4 witness: a two-example batch, one example with a gold span and
one with none; the plain filter keeps both, the Tf filter keeps only the
first. -/
theorem claim_C4_witness :
    (([⟨[["x"]], some ⟨[(0, 0)], ["x"]⟩⟩, ⟨[["y"]], some ⟨[], []⟩⟩]
          : List ParagraphAndQuestion).length = ([(0, 0), (0, 0)] : List Span).length ∧
      (∀ x ∈ ([⟨[["x"]], some ⟨[(0, 0)], ["x"]⟩⟩, ⟨[["y"]], some ⟨[], []⟩⟩]
          : List ParagraphAndQuestion), x.answer.isSome)) ∧
    (∃ sel, tfSelect (([⟨[["x"]], some ⟨[(0, 0)], ["x"]⟩⟩, ⟨[["y"]], some ⟨[], []⟩⟩]
          : List ParagraphAndQuestion).zip [(0, 0), (0, 0)]) = .ok sel ∧
        sel.map (fun p => p.1) =
          ([⟨[["x"]], some ⟨[(0, 0)], ["x"]⟩⟩, ⟨[["y"]], some ⟨[], []⟩⟩]
              : List ParagraphAndQuestion).filter
            (fun x => match x.answer with
              | some a => !a.answer_spans.isEmpty
              | none => false)) :=
  ⟨⟨by decide, by decide⟩,
    (claim_C4_amended_filters [⟨[["x"]], some ⟨[(0, 0)], ["x"]⟩⟩, ⟨[["y"]], some ⟨[], []⟩⟩]
      [(0, 0), (0, 0)]).2 (by decide) (by decide)⟩

/-- The per-example vector of `trivia_span_scores`, characterized field by
field: exact-span membership, and the three running maxima (each bounded
below by 0 and attained on the corresponding gold set when non-zero). -/
theorem scoreOne_spec (para : ParagraphAndQuestion) (ans : Answer) (ps : Span) :
    ((scoreOne para ans ps).span_exact = if ps ∈ ans.answer_spans then 1 else 0) ∧
    ((∀ g ∈ ans.answer_spans, compute_span_f1 g ps ≤ (scoreOne para ans ps).span_f1) ∧
      ((scoreOne para ans ps).span_f1 = 0 ∨
        ∃ g ∈ ans.answer_spans, (scoreOne para ans ps).span_f1 = compute_span_f1 g ps)) ∧
    ((∀ t ∈ ans.answer_aliases,
        trivia_em_score (predText para ps) t ≤ (scoreOne para ans ps).text_exact) ∧
      ((scoreOne para ans ps).text_exact = 0 ∨
        ∃ t ∈ ans.answer_aliases,
          (scoreOne para ans ps).text_exact = trivia_em_score (predText para ps) t)) ∧
    ((∀ t ∈ ans.answer_aliases,
        trivia_f1_score (predText para ps) t ≤ (scoreOne para ans ps).text_f1) ∧
      ((scoreOne para ans ps).text_f1 = 0 ∨
        ∃ t ∈ ans.answer_aliases,
          (scoreOne para ans ps).text_f1 = trivia_f1_score (predText para ps) t)) ∧
    (ans.answer_spans = [] ∧ ans.answer_aliases = [] → scoreOne para ans ps = ⟨0, 0, 0, 0⟩) := by
  refine ⟨?_, ⟨?_, ?_⟩, ⟨?_, ?_⟩, ⟨?_, ?_⟩, ?_⟩
  · show (if (ans.answer_spans.foldl (fun b s => b || decide (s = ps)) false) = true
      then (1 : Rat) else 0) = if ps ∈ ans.answer_spans then 1 else 0
    by_cases hmem : ps ∈ ans.answer_spans <;> simp [foldl_or_mem, hmem]
  · exact fun g hg => mem_le_foldl_max (fun s => compute_span_f1 s ps) ans.answer_spans 0 g hg
  · exact foldl_max_eq_init_or_mem (fun s => compute_span_f1 s ps) ans.answer_spans 0
  · exact fun t ht =>
      mem_le_foldl_max (fun t => trivia_em_score (predText para ps) t) ans.answer_aliases 0 t ht
  · exact foldl_max_eq_init_or_mem (fun t => trivia_em_score (predText para ps) t) ans.answer_aliases 0
  · exact fun t ht =>
      mem_le_foldl_max (fun t => trivia_f1_score (predText para ps) t) ans.answer_aliases 0 t ht
  · exact foldl_max_eq_init_or_mem (fun t => trivia_f1_score (predText para ps) t) ans.answer_aliases 0
  · rintro ⟨hsp, hal⟩
    simp [scoreOne, hsp, hal]

/-- Claim C7: for every scored example, `trivia_span_scores` produces the
vector `[span_exact, span_f1, text_exact, text_f1]` where `span_exact` is 1
exactly when the predicted span equals some gold span, `span_f1` is the
maximum span-overlap F1 over gold spans, `text_exact` and `text_f1` are the
maxima of exact match and token F1 over gold aliases (each maximum is an
upper bound and, when non-zero, attained), and the whole vector is 0 when
both gold-reference sets are empty. -/
theorem claim_C7_score_vector (data : List ParagraphAndQuestion) (pred : List Span)
    (svs : List ScoreVec) (i : Nat) (hi : i < data.length) (hp : i < pred.length)
    (ans : Answer) (h : trivia_span_scores data pred = .ok svs)
    (hans : (data.get ⟨i, hi⟩).answer = some ans) :
    ∃ v, svs.get? i = some v ∧
      (v.span_exact = if pred.get ⟨i, hp⟩ ∈ ans.answer_spans then 1 else 0) ∧
      ((∀ g ∈ ans.answer_spans, compute_span_f1 g (pred.get ⟨i, hp⟩) ≤ v.span_f1) ∧
        (v.span_f1 = 0 ∨ ∃ g ∈ ans.answer_spans, v.span_f1 = compute_span_f1 g (pred.get ⟨i, hp⟩))) ∧
      ((∀ t ∈ ans.answer_aliases,
          trivia_em_score (predText (data.get ⟨i, hi⟩) (pred.get ⟨i, hp⟩)) t ≤ v.text_exact) ∧
        (v.text_exact = 0 ∨ ∃ t ∈ ans.answer_aliases,
          v.text_exact = trivia_em_score (predText (data.get ⟨i, hi⟩) (pred.get ⟨i, hp⟩)) t)) ∧
      ((∀ t ∈ ans.answer_aliases,
          trivia_f1_score (predText (data.get ⟨i, hi⟩) (pred.get ⟨i, hp⟩)) t ≤ v.text_f1) ∧
        (v.text_f1 = 0 ∨ ∃ t ∈ ans.answer_aliases,
          v.text_f1 = trivia_f1_score (predText (data.get ⟨i, hi⟩) (pred.get ⟨i, hp⟩)) t)) ∧
      (ans.answer_spans = [] ∧ ans.answer_aliases = [] → v = ⟨0, 0, 0, 0⟩) := by
  obtain ⟨hlen, hget⟩ := trivia_span_scores_get data pred svs h
  obtain ⟨ans', hans', hg⟩ := hget i hi hp
  have hae : ans' = ans := by
    rw [hans'] at hans
    exact Option.some.inj hans
  subst hae
  exact ⟨scoreOne (data.get ⟨i, hi⟩) ans' (pred.get ⟨i, hp⟩), hg,
    scoreOne_spec (data.get ⟨i, hi⟩) ans' (pred.get ⟨i, hp⟩)⟩

/-- Claim C7 witness: one example whose prediction `(0,0)` matches the gold
span and whose text matches the single alias, yielding the vector
`[1, 1, 1, 1]`. -/
theorem claim_C7_witness :
    (trivia_span_scores [⟨[["x"]], some ⟨[(0, 0)], ["x"]⟩⟩] [(0, 0)]
        = .ok [⟨1, 1, 1, 1⟩]) ∧
    ∃ v, ([⟨1, 1, 1, 1⟩] : List ScoreVec).get? 0 = some v ∧
      (v.span_exact =
        if (([(0, 0)] : List Span).get ⟨0, by decide⟩)
            ∈ (Answer.mk [(0, 0)] ["x"]).answer_spans then 1 else 0) ∧
      ((∀ g ∈ (Answer.mk [(0, 0)] ["x"]).answer_spans,
          compute_span_f1 g (([(0, 0)] : List Span).get ⟨0, by decide⟩) ≤ v.span_f1) ∧
        (v.span_f1 = 0 ∨ ∃ g ∈ (Answer.mk [(0, 0)] ["x"]).answer_spans,
          v.span_f1 = compute_span_f1 g (([(0, 0)] : List Span).get ⟨0, by decide⟩))) ∧
      ((∀ t ∈ (Answer.mk [(0, 0)] ["x"]).answer_aliases,
          trivia_em_score (predText (([⟨[["x"]], some ⟨[(0, 0)], ["x"]⟩⟩]
              : List ParagraphAndQuestion).get ⟨0, by decide⟩)
            (([(0, 0)] : List Span).get ⟨0, by decide⟩)) t ≤ v.text_exact) ∧
        (v.text_exact = 0 ∨ ∃ t ∈ (Answer.mk [(0, 0)] ["x"]).answer_aliases,
          v.text_exact = trivia_em_score (predText (([⟨[["x"]], some ⟨[(0, 0)], ["x"]⟩⟩]
              : List ParagraphAndQuestion).get ⟨0, by decide⟩)
            (([(0, 0)] : List Span).get ⟨0, by decide⟩)) t)) ∧
      ((∀ t ∈ (Answer.mk [(0, 0)] ["x"]).answer_aliases,
          trivia_f1_score (predText (([⟨[["x"]], some ⟨[(0, 0)], ["x"]⟩⟩]
              : List ParagraphAndQuestion).get ⟨0, by decide⟩)
            (([(0, 0)] : List Span).get ⟨0, by decide⟩)) t ≤ v.text_f1) ∧
        (v.text_f1 = 0 ∨ ∃ t ∈ (Answer.mk [(0, 0)] ["x"]).answer_aliases,
          v.text_f1 = trivia_f1_score (predText (([⟨[["x"]], some ⟨[(0, 0)], ["x"]⟩⟩]
              : List ParagraphAndQuestion).get ⟨0, by decide⟩)
            (([(0, 0)] : List Span).get ⟨0, by decide⟩)) t)) ∧
      ((Answer.mk [(0, 0)] ["x"]).answer_spans = [] ∧
          (Answer.mk [(0, 0)] ["x"]).answer_aliases = [] → v = ⟨0, 0, 0, 0⟩) :=
  ⟨by decide,
    claim_C7_score_vector [⟨[["x"]], some ⟨[(0, 0)], ["x"]⟩⟩] [(0, 0)] [⟨1, 1, 1, 1⟩] 0
      (by decide) (by decide) ⟨[(0, 0)], ["x"]⟩ (by decide) rfl⟩

/-- Claim C8: `trivia_span_evaluation` returns the elementwise sum of the
per-example score vectors divided by `true_len`, labelled with the caller's
prefix, and this reduction is linear: the evaluation of a concatenated batch
is the label-wise sum of the evaluations of the two sub-batches. -/
theorem claim_C8_batch_reduction_linear (d1 d2 : List ParagraphAndQuestion)
    (p1 p2 : List Span) (s1 s2 : List ScoreVec) (tl : Rat) (pre : String)
    (hl : d1.length = p1.length)
    (h1 : trivia_span_scores d1 p1 = .ok s1)
    (h2 : trivia_span_scores d2 p2 = .ok s2) :
    trivia_span_evaluation d1 tl p1 pre = .ok
        [(pre ++ "accuracy", (sumScores s1).span_exact / tl),
         (pre ++ "f1", (sumScores s1).span_f1 / tl),
         (pre ++ "text-accuracy", (sumScores s1).text_exact / tl),
         (pre ++ "text-f1", (sumScores s1).text_f1 / tl)] ∧
      trivia_span_evaluation (d1 ++ d2) tl (p1 ++ p2) pre = .ok
        [(pre ++ "accuracy", (sumScores s1).span_exact / tl + (sumScores s2).span_exact / tl),
         (pre ++ "f1", (sumScores s1).span_f1 / tl + (sumScores s2).span_f1 / tl),
         (pre ++ "text-accuracy", (sumScores s1).text_exact / tl + (sumScores s2).text_exact / tl),
         (pre ++ "text-f1", (sumScores s1).text_f1 / tl + (sumScores s2).text_f1 / tl)] := by
  constructor
  · simp only [trivia_span_evaluation, h1]
  · have happ := trivia_span_scores_append d1 p1 s1 d2 p2 s2 hl h1 h2
    simp only [trivia_span_evaluation, happ, sumScores_append, svAdd, div_add_div_same]

/-- Claim C8 witness: a perfectly and a wrongly scored singleton batch,
reduced separately and as one concatenated batch over `true_len = 2`. -/
theorem claim_C8_witness :
    (([⟨[["x"]], some ⟨[(0, 0)], ["x"]⟩⟩] : List ParagraphAndQuestion).length
        = ([(0, 0)] : List Span).length ∧
      trivia_span_scores [⟨[["x"]], some ⟨[(0, 0)], ["x"]⟩⟩] [(0, 0)] = .ok [⟨1, 1, 1, 1⟩] ∧
      trivia_span_scores [⟨[["y", "z"]], some ⟨[(0, 0)], []⟩⟩] [(1, 1)] = .ok [⟨0, 0, 0, 0⟩]) ∧
    (trivia_span_evaluation [⟨[["x"]], some ⟨[(0, 0)], ["x"]⟩⟩] 2 [(0, 0)] "b1/" = .ok
        [("b1/" ++ "accuracy", (sumScores [⟨1, 1, 1, 1⟩]).span_exact / 2),
         ("b1/" ++ "f1", (sumScores [⟨1, 1, 1, 1⟩]).span_f1 / 2),
         ("b1/" ++ "text-accuracy", (sumScores [⟨1, 1, 1, 1⟩]).text_exact / 2),
         ("b1/" ++ "text-f1", (sumScores [⟨1, 1, 1, 1⟩]).text_f1 / 2)] ∧
      trivia_span_evaluation
          ([⟨[["x"]], some ⟨[(0, 0)], ["x"]⟩⟩] ++ [⟨[["y", "z"]], some ⟨[(0, 0)], []⟩⟩]) 2
          ([(0, 0)] ++ [(1, 1)]) "b1/" = .ok
        [("b1/" ++ "accuracy",
          (sumScores [⟨1, 1, 1, 1⟩]).span_exact / 2 + (sumScores [⟨0, 0, 0, 0⟩]).span_exact / 2),
         ("b1/" ++ "f1",
          (sumScores [⟨1, 1, 1, 1⟩]).span_f1 / 2 + (sumScores [⟨0, 0, 0, 0⟩]).span_f1 / 2),
         ("b1/" ++ "text-accuracy",
          (sumScores [⟨1, 1, 1, 1⟩]).text_exact / 2 + (sumScores [⟨0, 0, 0, 0⟩]).text_exact / 2),
         ("b1/" ++ "text-f1",
          (sumScores [⟨1, 1, 1, 1⟩]).text_f1 / 2 + (sumScores [⟨0, 0, 0, 0⟩]).text_f1 / 2)]) :=
  ⟨⟨by decide, by decide, by decide⟩,
    claim_C8_batch_reduction_linear [⟨[["x"]], some ⟨[(0, 0)], ["x"]⟩⟩]
      [⟨[["y", "z"]], some ⟨[(0, 0)], []⟩⟩] [(0, 0)] [(1, 1)] [⟨1, 1, 1, 1⟩] [⟨0, 0, 0, 0⟩]
      2 "b1/" (by decide) (by decide) (by decide)⟩

end TriviaQaEval
